import Mathlib

/-!
Verification development for the data pipeline of `thingspeak_dashboard.py`
(repository PM1980/dht22).

The pipeline under study is `fetch_data` (fetch a ThingSpeak feed, build a
dataframe, parse timestamps as UTC, add the fixed UTC-3 offset, coerce the two
numeric fields with absent-on-failure semantics, sort by adjusted timestamp)
together with the summary computations done inline in `main` (current/previous
metric values via positional indexing from the end, and field extremes with the
timestamp of their first occurrence via idxmax/idxmin).

Modelling conventions:
* timestamps are absolute instants counted in seconds since the Unix epoch
  (`Int`); the civil-date conversion follows the standard days-from-civil
  algorithm, so concrete ISO-8601 inputs can be evaluated exactly;
* the two numeric fields are modelled as exact rationals (`Option ℚ`), with
  `none` playing the role of pandas' NaN for values that fail numeric
  coercion (`pd.to_numeric(..., errors='coerce')`);
* `pd.to_datetime` is called without an `errors` argument, so one unparsable
  timestamp string raises and the surrounding `try/except` returns an empty
  dataframe; the model mirrors this with an `Option` over the whole
  normalization;
* `df.sort_values('created_at')` sorts by the adjusted timestamp.  pandas'
  default sort kind is quicksort, whose order among equal keys is not
  specified; the model uses a deterministic comparison sort on the timestamp
  key, and no theorem below relies on the model's particular tie order.
-/

namespace Dht22

/-! ## Calendar arithmetic (seconds since the Unix epoch) -/

/-- Leap-year test of the proleptic Gregorian calendar. -/
def isLeapYear (y : Nat) : Bool :=
  (y % 4 == 0 && y % 100 != 0) || y % 400 == 0

/-- Number of days of month `m` (1-based) of year `y`. -/
def daysInMonth (y m : Nat) : Nat :=
  if m == 2 then (if isLeapYear y then 29 else 28)
  else if m == 4 || m == 6 || m == 9 || m == 11 then 30
  else 31

/-- Days from 1970-01-01 to the civil date `y-m-d` (days-from-civil
algorithm, valid for the dates handled by the dashboard). -/
def daysFromCivil (y m d : Int) : Int :=
  let yAdj : Int := if m ≤ 2 then y - 1 else y
  let era : Int := (if 0 ≤ yAdj then yAdj else yAdj - 399) / 400
  let yoe : Int := yAdj - era * 400
  let mp : Int := (m + 9) % 12
  let doy : Int := (153 * mp + 2) / 5 + d - 1
  let doe : Int := yoe * 365 + yoe / 4 - yoe / 100 + doy
  era * 146097 + doe - 719468

/-- Seconds since the Unix epoch of the civil instant `y-mo-d h:mi:s` (UTC). -/
def epochOfCivil (y mo d h mi s : Int) : Int :=
  daysFromCivil y mo d * 86400 + h * 3600 + mi * 60 + s

/-! ## Character-level string parsing helpers -/

/-- Split a character list at every occurrence of the separator `c`. -/
def splitOnChar (c : Char) : List Char → List (List Char)
  | [] => [[]]
  | x :: xs =>
    let r := splitOnChar c xs
    if x == c then [] :: r
    else
      match r with
      | [] => [[x]]
      | y :: ys => (x :: y) :: ys

/-- Decimal digit test. -/
def isDigitChar (c : Char) : Bool := '0' ≤ c && c ≤ '9'

/-- Value of a decimal digit character. -/
def digitVal (c : Char) : Nat := c.toNat - '0'.toNat

/-- Parse a nonempty all-digit character list as a natural number. -/
def parseNatChars (l : List Char) : Option Nat :=
  let rec go (acc : Nat) : List Char → Option Nat
    | [] => some acc
    | c :: cs => if isDigitChar c then go (acc * 10 + digitVal c) cs else none
  match l with
  | [] => none
  | _ => go 0 l

/-! ## Timestamp parsing

Models the `pd.to_datetime(df['created_at'], utc=True)` call of
`fetch_data` at the granularity the feed uses: ThingSpeak delivers
`created_at` values of the form `YYYY-MM-DDTHH:MM:SSZ`, which pandas parses
as a UTC instant; any string that does not parse makes the call raise, which
the model renders as `none`. -/

/-- Parse an ISO-8601 `YYYY-MM-DDTHH:MM:SSZ` string as seconds since the
Unix epoch (UTC); `none` models the parse error raised by `pd.to_datetime`. -/
def parseTimestampUTC (str : String) : Option Int :=
  match splitOnChar 'T' str.data with
  | [date, time] =>
    match splitOnChar '-' date, splitOnChar 'Z' time with
    | [ys, ms, ds], [hms, []] =>
      match splitOnChar ':' hms with
      | [hs, mis, ss] =>
        match parseNatChars ys, parseNatChars ms, parseNatChars ds,
              parseNatChars hs, parseNatChars mis, parseNatChars ss with
        | some y, some mo, some d, some h, some mi, some s =>
          if 1 ≤ mo ∧ mo ≤ 12 ∧ 1 ≤ d ∧ d ≤ daysInMonth y mo
              ∧ h ≤ 23 ∧ mi ≤ 59 ∧ s ≤ 59 then
            some (epochOfCivil y mo d h mi s)
          else none
        | _, _, _, _, _, _ => none
      | _ => none
    | _, _ => none
  | _ => none

/-! ## Numeric coercion

Models `pd.to_numeric(df[...], errors='coerce')`: a decimal string becomes a
(rational) number, anything else becomes NaN, rendered as `none`.  A missing
field (`None` in the JSON record) is NaN as well. -/

/-- Parse an optionally signed decimal string as an exact rational;
`none` models coercion failure (NaN). -/
def parseDecimal (s : String) : Option ℚ :=
  let (sgn, body) : ℚ × List Char :=
    match s.data with
    | '-' :: rest => (-1, rest)
    | '+' :: rest => (1, rest)
    | _ => (1, s.data)
  match splitOnChar '.' body with
  | [ip] => (parseNatChars ip).map (fun n => sgn * (n : ℚ))
  | [ip, fp] =>
    if ip.isEmpty && fp.isEmpty then none
    else
      match (if ip.isEmpty then some 0 else parseNatChars ip),
            (if fp.isEmpty then some 0 else parseNatChars fp) with
      | some n, some f =>
        some (sgn * ((n : ℚ) + (f : ℚ) / ((10 : ℚ) ^ fp.length)))
      | _, _ => none
  | _ => none

/-- Numeric coercion of an optional raw field value (`none` = field missing
in the record, which pandas renders as NaN). -/
def toNumeric (v : Option String) : Option ℚ := v.bind parseDecimal

/-! ## Data model -/

/-- One telemetry sample as delivered in the `feeds` list of the ThingSpeak
JSON payload: a `created_at` string plus the two (possibly missing) string
fields of interest. -/
structure RawRecord where
  created_at : String
  field1 : Option String
  field2 : Option String
deriving DecidableEq

/-- One row of the normalized dataframe: adjusted timestamp (seconds since
the Unix epoch) and the two coerced numeric fields (`none` = NaN). -/
structure Reading where
  created_at : Int
  field1 : Option ℚ
  field2 : Option ℚ
deriving DecidableEq

/-- `TZ_OFFSET = timedelta(hours=-3)` of the source, in seconds. -/
def TZ_OFFSET : Int := -3 * 3600

/-- Normalization of one raw record (the per-row effect of lines 27-30 of
`fetch_data`): parse `created_at` as UTC, add the UTC-3 offset, coerce the
two numeric fields; `none` models the exception raised by `pd.to_datetime`
on an unparsable timestamp. -/
def normalizeRecord (r : RawRecord) : Option Reading :=
  (parseTimestampUTC r.created_at).map fun t =>
    { created_at := t + TZ_OFFSET
      field1 := toNumeric r.field1
      field2 := toNumeric r.field2 }

/-- Normalization of the whole `feeds` list; `none` as soon as one
timestamp fails to parse, because `pd.to_datetime` is applied to the whole
column and raises on the first bad value. -/
def normalizeAll : List RawRecord → Option (List Reading)
  | [] => some []
  | r :: rs =>
    match normalizeRecord r, normalizeAll rs with
    | some x, some xs => some (x :: xs)
    | _, _ => none

/-- Models `df.sort_values('created_at')` (line 33): order the rows by the
adjusted timestamp.  pandas' default quicksort does not specify the order of
rows with equal keys; the model uses a deterministic insertion sort keyed on
`created_at`, and no theorem below depends on the model's tie order. -/
def sortByCreatedAt (l : List Reading) : List Reading :=
  List.insertionSort (fun a b => a.created_at ≤ b.created_at) l

/-- Body of the HTTP response as far as `fetch_data` inspects it: either not
valid JSON (so `response.json()` raises), or a JSON object that may or may
not carry the `feeds` record list. -/
inductive Payload where
  | notJson : Payload
  | json : Option (List RawRecord) → Payload
deriving DecidableEq

/-- Outcome of the `requests.get` call plus `raise_for_status`: a transport
failure (connection error or non-success HTTP status) or a successful
response with a body. -/
inductive HttpResult where
  | transportFailure : HttpResult
  | success : Payload → HttpResult
deriving DecidableEq

/-- The `fetch_data` pipeline (lines 19-44): on success, normalize and sort
the `feeds` list; every failure path (transport failure, non-JSON body,
missing `feeds` key, unparsable timestamp column) is caught by the
`try/except` blocks and yields the empty dataframe. -/
def fetch_data (r : HttpResult) : List Reading :=
  match r with
  | .transportFailure => []
  | .success .notJson => []
  | .success (.json none) => []
  | .success (.json (some feeds)) =>
    match normalizeAll feeds with
    | none => []
    | some readings => sortByCreatedAt readings

/-! ## Fetch request (line 21-22)

`fetch_data` builds one URL from the module-level channel id and read key and
issues a single `requests.get` on it; the `results` query parameter is the
literal `15000` of the f-string. -/

/-- The process-wide configuration read from `st.secrets` (lines 13-14). -/
structure Config where
  channel_id : String
  read_api_key : String
deriving DecidableEq

/-- One outbound feed request, as parameterized by the URL of line 21. -/
structure Request where
  channelId : String
  apiKey : String
  results : Nat
deriving DecidableEq

/-- The request `fetch_data` builds (line 21): channel id and key come from
the configuration, the `results` parameter is the hard-coded literal 15000. -/
def fetchRequest (cfg : Config) : Request :=
  { channelId := cfg.channel_id, apiKey := cfg.read_api_key, results := 15000 }

/-- The URL string of line 21. -/
def feedsUrl (cfg : Config) : String :=
  "https://api.thingspeak.com/channels/" ++ cfg.channel_id
    ++ "/feeds.json?api_key=" ++ cfg.read_api_key ++ "&results=15000"

/-- The outbound calls of one `fetch_data` invocation: exactly the single
`requests.get(url)` of line 22. -/
def requestsIssued (cfg : Config) : List Request :=
  [fetchRequest cfg]

/-! ## Statelessness model

The only module-level bindings of the script are the two secrets (lines
13-14) and the constant `TZ_OFFSET` (line 17); none of them is ever written
after startup, and `fetch_data` builds its dataframe afresh from the HTTP
response.  An invocation is therefore a pure function of the configuration
state and the remote response, and it returns the state unchanged. -/

/-- The mutable-state surface of the process: the configuration bindings
read once at startup.  The script has no other module-level state. -/
structure AppState where
  channel_id : String
  read_api_key : String
deriving DecidableEq

/-- One pipeline invocation: issue the fetch against the configured channel,
produce the normalized dataframe, leave the process state as it was. -/
def runPipeline (s : AppState) (r : HttpResult) : AppState × List Reading :=
  (s, fetch_data r)

/-! ## Summary computations of `main` (Home branch)

Lines 152-163 compute the current and previous value of each field with
`iloc[-1]` / `iloc[-2]`, guarded only by `if not df.empty`; lines 180-185
compute the extremes of `field1` with `max/min` and the timestamp of their
first occurrence with `idxmax/idxmin` plus `loc`. -/

/-- The error vocabulary of the positional-indexing model: pandas raises
`IndexError` when a positional index is out of bounds, and nothing in
`main` catches it. -/
inductive PdError where
  | indexError : PdError
deriving DecidableEq

/-- Models `series.iloc[-k]` for `k ≥ 1`: the `k`-th element from the end,
or an uncaught `IndexError` when the series is shorter than `k`. -/
def ilocNeg (l : List α) (k : Nat) : Except PdError α :=
  if h : 0 < k ∧ k ≤ l.length then
    .ok (l.get ⟨l.length - k, by omega⟩)
  else .error .indexError

/-- Subtraction on NaN-able values: NaN propagates (models float subtraction
with NaN operands in the metric delta). -/
def optSub (a b : Option ℚ) : Option ℚ :=
  match a, b with
  | some x, some y => some (x - y)
  | _, _ => none

/-- What the Home branch renders from the metric computations: either the
no-data message (empty dataframe) or the four metric values of lines
156-163. -/
inductive HomeOutput where
  | noData : HomeOutput
  | metrics : Option ℚ → Option ℚ → Option ℚ → Option ℚ → HomeOutput
deriving DecidableEq

/-- The metric part of the Home branch (lines 152-163): guard on
`df.empty`, then current and previous of each field via `iloc[-1]` and
`iloc[-2]`, with the delta shown next to the current value.  An
out-of-bounds positional access propagates as an uncaught `IndexError`. -/
def homeView (df : List Reading) : Except PdError HomeOutput :=
  if df.isEmpty then .ok .noData
  else
    match ilocNeg (df.map (fun r => r.field1)) 1,
          ilocNeg (df.map (fun r => r.field1)) 2,
          ilocNeg (df.map (fun r => r.field2)) 1,
          ilocNeg (df.map (fun r => r.field2)) 2 with
    | .error e, _, _, _ => .error e
    | _, .error e, _, _ => .error e
    | _, _, .error e, _ => .error e
    | _, _, _, .error e => .error e
    | .ok curT, .ok prevT, .ok curH, .ok prevH =>
      .ok (.metrics curT (optSub curT prevT) curH (optSub curH prevH))

/-! ## Extremes (lines 180-185)

`df['field1'].max()` / `.min()` skip NaN; `idxmax` / `idxmin` return the
label of the first row attaining the extreme among the present values, and
`df.loc[label, 'created_at']` reads that row's timestamp.  The model scans
the rows in order and keeps the earliest row whose value is not strictly
beaten by a later one, returning the row together with its value. -/

/-- Forward scan keeping the first row whose present value no later present
value `beats`: with `beats w v = v < w` this is `idxmax` (first row of the
maximum), with `beats w v = w < v` it is `idxmin`. -/
def firstBestBy (beats : ℚ → ℚ → Bool) (f : α → Option ℚ) :
    List α → Option (α × ℚ)
  | [] => none
  | x :: rest =>
    match f x with
    | none => firstBestBy beats f rest
    | some v =>
      match firstBestBy beats f rest with
      | none => some (x, v)
      | some (b, w) => if beats w v then some (b, w) else some (x, v)

/-- First row attaining the maximum present value of the field, with that
value (models `idxmax` + `loc` + `max`). -/
def seriesMax (f : α → Option ℚ) (l : List α) : Option (α × ℚ) :=
  firstBestBy (fun w v => decide (v < w)) f l

/-- First row attaining the minimum present value of the field, with that
value (models `idxmin` + `loc` + `min`). -/
def seriesMin (f : α → Option ℚ) (l : List α) : Option (α × ℚ) :=
  firstBestBy (fun w v => decide (w < v)) f l

/-- `df[field].max()` of lines 180. -/
def maxValue (f : Reading → Option ℚ) (df : List Reading) : Option ℚ :=
  (seriesMax f df).map (fun p => p.2)

/-- `df.loc[df[field].idxmax(), 'created_at']` of line 182. -/
def maxTimestamp (f : Reading → Option ℚ) (df : List Reading) : Option Int :=
  (seriesMax f df).map (fun p => p.1.created_at)

/-- `df[field].min()` of line 181. -/
def minValue (f : Reading → Option ℚ) (df : List Reading) : Option ℚ :=
  (seriesMin f df).map (fun p => p.2)

/-- `df.loc[df[field].idxmin(), 'created_at']` of line 183. -/
def minTimestamp (f : Reading → Option ℚ) (df : List Reading) : Option Int :=
  (seriesMin f df).map (fun p => p.1.created_at)

/-! ## Mean over present values

Modelled from the spec: the Summary Computer's `mean` ("arithmetic mean of
all present values of a named field", spec section 4.5) has no counterpart in
`src/`; the definition follows the spec's words, with NaN-skipping semantics
shared with the extremes. -/

/-- Modelled from the spec: arithmetic mean of the present values of a list
of NaN-able values; absent when no value is present (spec section 4.5,
"mean = arithmetic mean of all present values of a named field"). -/
def meanOfPresent (l : List (Option ℚ)) : Option ℚ :=
  let vs := l.filterMap id
  if vs.length = 0 then none else some (vs.sum / (vs.length : ℚ))

/-- Modelled from the spec: the Summary `mean` of a named field over a
series. -/
def meanOfField (f : Reading → Option ℚ) (df : List Reading) : Option ℚ :=
  meanOfPresent (df.map f)

/-! ## Rolling Aggregator

Modelled from the spec: the Rolling Aggregator component (spec section 4.3)
has no counterpart in `src/`; the definitions follow the spec's words — a
trailing window of the last `w` values carried incrementally along the
series, each output being the mean of the present values of the current
window and absent when the whole window is absent. -/

/-- Modelled from the spec: slide the trailing window one element forward,
keeping at most the last `w` values (spec section 4.3, "bounded queue of the
last `w` ... values"). -/
def rollingStep (w : Nat) (win : List (Option ℚ)) (x : Option ℚ) :
    List (Option ℚ) :=
  if w < (win ++ [x]).length then (win ++ [x]).tail else win ++ [x]

/-- Modelled from the spec: walk the series carrying the trailing window,
emitting the mean of the window's present values at each position. -/
def rollingMAAux (w : Nat) (win : List (Option ℚ)) :
    List (Option ℚ) → List (Option ℚ)
  | [] => []
  | x :: xs =>
    meanOfPresent (rollingStep w win x) :: rollingMAAux w (rollingStep w win x) xs

/-- Modelled from the spec: the trailing moving average of window size `w`
over a column of NaN-able values (spec section 4.3). -/
def rollingMA (w : Nat) (xs : List (Option ℚ)) : List (Option ℚ) :=
  rollingMAAux w [] xs

/-- Modelled from the spec: the `RollingSeries` of a series — the
`temperatureMA` and `humidityMA` columns, aligned by index with the
readings. -/
def rollingSeries (w : Nat) (s : List Reading) :
    List (Option ℚ) × List (Option ℚ) :=
  (rollingMA w (s.map (fun r => r.field1)),
   rollingMA w (s.map (fun r => r.field2)))

/-- The last `w` elements of a list (the trailing window at the end of a
processed prefix); used to state the rolling-aggregator invariant. -/
def lastN (w : Nat) (l : List (Option ℚ)) : List (Option ℚ) :=
  l.drop (l.length - w)

/-! ## Helper lemmas -/

theorem rollingStep_lastN (w : Nat) (pre : List (Option ℚ)) (x : Option ℚ) :
    rollingStep w (lastN w pre) x = lastN w (pre ++ [x]) := by
  unfold rollingStep lastN
  rcases Nat.lt_or_ge pre.length w with hw | hw
  · have h0 : pre.length - w = 0 := by omega
    have h1 : (pre ++ [x]).length - w = 0 := by simp; omega
    rw [h0, List.drop_zero, h1, List.drop_zero, if_neg]
    simp
    omega
  · rcases Nat.eq_zero_or_pos w with hw0 | hw0
    · subst hw0
      rw [Nat.sub_zero, List.drop_length, if_pos (by simp)]
      rw [List.drop_eq_nil_of_le (by simp)]
      rfl
    · have hlt : pre.length - w < pre.length := by omega
      rw [List.drop_eq_getElem_cons hlt]
      rw [if_pos (by simp [List.length_drop]; omega)]
      simp only [List.cons_append, List.tail_cons]
      rw [show (pre ++ [x]).length - w = pre.length + 1 - w by simp]
      rw [List.drop_append_of_le_length (by omega)]
      congr 2
      omega

theorem length_rollingMAAux (w : Nat) (xs : List (Option ℚ)) :
    ∀ win, (rollingMAAux w win xs).length = xs.length := by
  induction xs with
  | nil => intro win; rfl
  | cons x xs ih => intro win; simp [rollingMAAux, ih]

theorem rollingMAAux_getElem (w : Nat) (xs : List (Option ℚ)) :
    ∀ (pre : List (Option ℚ)) (i : Nat), i < xs.length →
      (rollingMAAux w (lastN w pre) xs)[i]? =
        some (meanOfPresent (lastN w (pre ++ xs.take (i + 1)))) := by
  induction xs with
  | nil => intro pre i hi; simp at hi
  | cons x xs ih =>
    intro pre i hi
    cases i with
    | zero =>
      simp only [rollingMAAux, rollingStep_lastN, List.getElem?_cons_zero]
      rfl
    | succ i =>
      simp only [rollingMAAux, rollingStep_lastN, List.getElem?_cons_succ]
      have h2 : i < xs.length := by simpa using hi
      rw [ih (pre ++ [x]) i h2]
      rw [List.append_assoc]
      rfl

theorem rollingMA_getElem (w : Nat) (l : List (Option ℚ)) (i : Nat)
    (hi : i < l.length) :
    (rollingMA w l)[i]? =
      some (meanOfPresent ((l.take (i + 1)).drop ((i + 1) - w))) := by
  have e : rollingMA w l = rollingMAAux w (lastN w []) l := by
    simp [rollingMA, lastN]
  have htl : (l.take (i + 1)).length = i + 1 := by
    rw [List.length_take]; omega
  rw [e, rollingMAAux_getElem w l [] i hi]
  unfold lastN
  rw [List.nil_append, htl]

theorem length_rollingMA (w : Nat) (xs : List (Option ℚ)) :
    (rollingMA w xs).length = xs.length :=
  length_rollingMAAux w xs []

theorem firstBestBy_cons_absent {α : Type} (beats : ℚ → ℚ → Bool)
    (f : α → Option ℚ) (x : α) (rest : List α) (hx : f x = none) :
    firstBestBy beats f (x :: rest) = firstBestBy beats f rest := by
  simp only [firstBestBy]
  rw [hx]

theorem firstBestBy_cons_of_rest_none {α : Type} (beats : ℚ → ℚ → Bool)
    (f : α → Option ℚ) (x : α) (rest : List α) (v : ℚ) (hx : f x = some v)
    (hr : firstBestBy beats f rest = none) :
    firstBestBy beats f (x :: rest) = some (x, v) := by
  simp only [firstBestBy]
  rw [hx, hr]

theorem firstBestBy_cons_of_rest_some {α : Type} (beats : ℚ → ℚ → Bool)
    (f : α → Option ℚ) (x : α) (rest : List α) (v w : ℚ) (b : α)
    (hx : f x = some v) (hr : firstBestBy beats f rest = some (b, w)) :
    firstBestBy beats f (x :: rest) =
      if beats w v then some (b, w) else some (x, v) := by
  simp only [firstBestBy]
  rw [hx, hr]

theorem firstBestBy_eq_none {α : Type} (beats : ℚ → ℚ → Bool)
    (f : α → Option ℚ) (l : List α) :
    firstBestBy beats f l = none ↔ ∀ b ∈ l, f b = none := by
  induction l with
  | nil => simp [firstBestBy]
  | cons x rest ih =>
    cases hx : f x with
    | none => simp [firstBestBy_cons_absent beats f x rest hx, ih, hx]
    | some v =>
      have hne : ¬ ∀ b ∈ x :: rest, f b = none := by
        intro hall
        have hx2 := hall x (List.mem_cons_self x rest)
        rw [hx] at hx2
        exact Option.noConfusion hx2
      cases hr : firstBestBy beats f rest with
      | none =>
        rw [firstBestBy_cons_of_rest_none beats f x rest v hx hr]
        exact ⟨fun h => Option.noConfusion h, fun hall => absurd hall hne⟩
      | some p =>
        rcases p with ⟨b, w⟩
        rw [firstBestBy_cons_of_rest_some beats f x rest v w b hx hr]
        by_cases hb : beats w v = true
        · rw [if_pos hb]
          exact ⟨fun h => Option.noConfusion h, fun hall => absurd hall hne⟩
        · rw [if_neg hb]
          exact ⟨fun h => Option.noConfusion h, fun hall => absurd hall hne⟩

theorem firstBestBy_mem {α : Type} (beats : ℚ → ℚ → Bool)
    (f : α → Option ℚ) (l : List α) (a : α) (v : ℚ)
    (h : firstBestBy beats f l = some (a, v)) : a ∈ l ∧ f a = some v := by
  induction l with
  | nil => simp [firstBestBy] at h
  | cons x rest ih =>
    cases hx : f x with
    | none =>
      rw [firstBestBy_cons_absent beats f x rest hx] at h
      rcases ih h with ⟨hm, hv⟩
      exact ⟨List.mem_cons_of_mem x hm, hv⟩
    | some u =>
      cases hr : firstBestBy beats f rest with
      | none =>
        rw [firstBestBy_cons_of_rest_none beats f x rest u hx hr] at h
        injection h with h
        injection h with h1 h2
        subst h1; subst h2
        exact ⟨List.mem_cons_self x rest, hx⟩
      | some p =>
        rcases p with ⟨b, w⟩
        rw [firstBestBy_cons_of_rest_some beats f x rest u w b hx hr] at h
        by_cases hb : beats w u = true
        · rw [if_pos hb] at h
          injection h with h
          injection h with h1 h2
          subst h1; subst h2
          rcases ih hr with ⟨hm, hv⟩
          exact ⟨List.mem_cons_of_mem x hm, hv⟩
        · rw [if_neg hb] at h
          injection h with h
          injection h with h1 h2
          subst h1; subst h2
          exact ⟨List.mem_cons_self x rest, hx⟩

theorem firstBestBy_spec {α : Type} (beats : ℚ → ℚ → Bool)
    (hirr : ∀ v : ℚ, beats v v = false)
    (hasym : ∀ u v : ℚ, beats u v = true → beats v u = false)
    (hneg : ∀ u w v : ℚ, beats u w = false → beats w v = false →
      beats u v = false)
    (f : α → Option ℚ) (l : List α)
    (hpres : ∃ r ∈ l, (f r).isSome) :
    ∃ a v, firstBestBy beats f l = some (a, v) ∧ f a = some v ∧
      (∀ b ∈ l, ∀ u, f b = some u → beats u v = false) ∧
      ∃ i, i < l.length ∧ l[i]? = some a ∧
        ∀ j, j < i → ∀ b, l[j]? = some b → ∀ u, f b = some u →
          beats v u = true := by
  induction l with
  | nil => simp at hpres
  | cons x rest ih =>
    cases hx : f x with
    | none =>
      have hpres2 : ∃ r ∈ rest, (f r).isSome := by
        rcases hpres with ⟨r, hr, hrs⟩
        rcases List.mem_cons.mp hr with h | h
        · subst h; rw [hx] at hrs; simp at hrs
        · exact ⟨r, h, hrs⟩
      rcases ih hpres2 with ⟨a, v, hfb, hfa, hbound, i, hi, hgi, hearly⟩
      refine ⟨a, v, ?_, hfa, ?_, i + 1, by simpa using hi, by simpa using hgi, ?_⟩
      · rw [firstBestBy_cons_absent beats f x rest hx]; exact hfb
      · intro b hb u hu
        rcases List.mem_cons.mp hb with h | h
        · subst h; rw [hx] at hu; exact absurd hu (by simp)
        · exact hbound b h u hu
      · intro j hj b hgb u hu
        cases j with
        | zero =>
          rw [List.getElem?_cons_zero] at hgb
          injection hgb with hgb
          subst hgb
          rw [hx] at hu
          exact absurd hu (by simp)
        | succ j =>
          rw [List.getElem?_cons_succ] at hgb
          exact hearly j (by omega) b hgb u hu
    | some v =>
      cases hr : firstBestBy beats f rest with
      | none =>
        have hall : ∀ b ∈ rest, f b = none :=
          (firstBestBy_eq_none beats f rest).mp hr
        refine ⟨x, v, ?_, hx, ?_, 0, by simp, by simp, ?_⟩
        · exact firstBestBy_cons_of_rest_none beats f x rest v hx hr
        · intro b hb u hu
          rcases List.mem_cons.mp hb with h | h
          · subst h
            rw [hx] at hu
            injection hu with hu
            subst hu
            exact hirr v
          · rw [hall b h] at hu; exact absurd hu (by simp)
        · intro j hj; omega
      | some p =>
        rcases p with ⟨b, w⟩
        have hpres2 : ∃ r ∈ rest, (f r).isSome := by
          rcases firstBestBy_mem beats f rest b w hr with ⟨hm, hv⟩
          exact ⟨b, hm, by simp [hv]⟩
        rcases ih hpres2 with ⟨a2, v2, hfb2, hfa2, hbound2, i2, hi2, hgi2, hearly2⟩
        rw [hr] at hfb2
        injection hfb2 with hfb2
        injection hfb2 with he1 he2
        subst he1; subst he2
        by_cases hb : beats w v = true
        · refine ⟨b, w, ?_, hfa2, ?_, i2 + 1, by simpa using hi2,
            by simpa using hgi2, ?_⟩
          · rw [firstBestBy_cons_of_rest_some beats f x rest v w b hx hr,
              if_pos hb]
          · intro c hc u hu
            rcases List.mem_cons.mp hc with h | h
            · subst h
              rw [hx] at hu
              injection hu with hu
              subst hu
              exact hasym _ _ hb
            · exact hbound2 c h u hu
          · intro j hj c hgc u hu
            cases j with
            | zero =>
              rw [List.getElem?_cons_zero] at hgc
              injection hgc with hgc
              subst hgc
              rw [hx] at hu
              injection hu with hu
              subst hu
              exact hb
            | succ j =>
              rw [List.getElem?_cons_succ] at hgc
              exact hearly2 j (by omega) c hgc u hu
        · have hbf : beats w v = false := by
            simpa using hb
          refine ⟨x, v, ?_, hx, ?_, 0, by simp, by simp, ?_⟩
          · rw [firstBestBy_cons_of_rest_some beats f x rest v w b hx hr,
              if_neg hb]
          · intro c hc u hu
            rcases List.mem_cons.mp hc with h | h
            · subst h
              rw [hx] at hu
              injection hu with hu
              subst hu
              exact hirr v
            · exact hneg u w v (hbound2 c h u hu) hbf
          · intro j hj; omega

theorem normalizeAll_length (rs : List RawRecord)
    (h : ∀ r ∈ rs, (parseTimestampUTC r.created_at).isSome) :
    ∃ l, normalizeAll rs = some l ∧ l.length = rs.length := by
  induction rs with
  | nil => exact ⟨[], rfl, rfl⟩
  | cons r rs ih =>
    have hr : (parseTimestampUTC r.created_at).isSome := h r (by simp)
    rcases Option.isSome_iff_exists.mp hr with ⟨t, ht⟩
    rcases ih (fun x hx => h x (List.mem_cons_of_mem r hx)) with ⟨l, hl, hlen⟩
    refine ⟨{ created_at := t + TZ_OFFSET, field1 := toNumeric r.field1,
              field2 := toNumeric r.field2 } :: l, ?_, ?_⟩
    · have hnr : normalizeRecord r = some
          { created_at := t + TZ_OFFSET, field1 := toNumeric r.field1,
            field2 := toNumeric r.field2 } := by
        simp [normalizeRecord, ht]
      simp only [normalizeAll]
      rw [hnr, hl]
    · simp [hlen]

theorem firstBestBy_insert_absent {α : Type} (beats : ℚ → ℚ → Bool)
    (f : α → Option ℚ) (r : α) (hr : f r = none) (l1 l2 : List α) :
    firstBestBy beats f (l1 ++ r :: l2) = firstBestBy beats f (l1 ++ l2) := by
  induction l1 with
  | nil =>
    rw [List.nil_append, List.nil_append]
    exact firstBestBy_cons_absent beats f r l2 hr
  | cons x xs ih =>
    rw [List.cons_append, List.cons_append]
    cases hx : f x with
    | none =>
      rw [firstBestBy_cons_absent beats f x _ hx,
        firstBestBy_cons_absent beats f x _ hx]
      exact ih
    | some v =>
      cases hrest : firstBestBy beats f (xs ++ l2) with
      | none =>
        rw [firstBestBy_cons_of_rest_none beats f x _ v hx (ih.trans hrest),
          firstBestBy_cons_of_rest_none beats f x _ v hx hrest]
      | some p =>
        rcases p with ⟨b, w⟩
        rw [firstBestBy_cons_of_rest_some beats f x _ v w b hx (ih.trans hrest),
          firstBestBy_cons_of_rest_some beats f x _ v w b hx hrest]

theorem meanOfPresent_insert_absent (l1 l2 : List (Option ℚ)) :
    meanOfPresent (l1 ++ none :: l2) = meanOfPresent (l1 ++ l2) := by
  unfold meanOfPresent
  rw [List.filterMap_append, List.filterMap_append, List.filterMap_cons]
  rfl

theorem ilocNeg_ok {α : Type} (l : List α) (k : Nat) (h1 : 0 < k)
    (h2 : k ≤ l.length) :
    ilocNeg l k = .ok (l.get ⟨l.length - k, by omega⟩) := by
  unfold ilocNeg
  rw [dif_pos ⟨h1, h2⟩]

theorem ilocNeg_err {α : Type} (l : List α) (k : Nat) (h : l.length < k) :
    ilocNeg l k = .error .indexError := by
  unfold ilocNeg
  rw [dif_neg]
  omega

/-- The adjusted-timestamp sort relation is total. -/
instance : IsTotal Reading (fun a b => a.created_at ≤ b.created_at) :=
  ⟨fun a b => Int.le_total a.created_at b.created_at⟩

/-- The adjusted-timestamp sort relation is transitive. -/
instance : IsTrans Reading (fun a b => a.created_at ≤ b.created_at) :=
  ⟨fun _ _ _ h1 h2 => le_trans h1 h2⟩

/-- Whatever the response, the dataframe `fetch_data` returns is sorted
non-decreasing by adjusted timestamp.  (The model cannot settle the tie
order among equal timestamps, because pandas' default quicksort leaves it
unspecified; this theorem states only the ordering half.) -/
theorem fetch_data_sorted (r : HttpResult) :
    List.Sorted (fun a b => a.created_at ≤ b.created_at) (fetch_data r) := by
  cases r with
  | transportFailure => exact List.sorted_nil
  | success p =>
    cases p with
    | notJson => exact List.sorted_nil
    | json o =>
      cases o with
      | none => exact List.sorted_nil
      | some feeds =>
        simp only [fetch_data]
        cases normalizeAll feeds with
        | none => exact List.sorted_nil
        | some l => exact List.sorted_insertionSort _ l


/-! ## Claim theorems -/

/-- Claim C1: the normalizer parses each record's timestamp as a UTC instant
and adds the configured offset of -3 hours to it; in particular the raw
timestamp 2024-01-01T00:00:00Z normalizes to the display instant
2023-12-31 21:00:00 and 2024-01-01T01:00:00Z to 2023-12-31 22:00:00, with
temperatures 20.0 and 22.0. -/
theorem claim_C1_utc_offset :
    TZ_OFFSET = -(3 * 3600)
    ∧ (∀ (r : RawRecord) (t : Int), parseTimestampUTC r.created_at = some t →
        (normalizeRecord r).map (fun x => x.created_at) = some (t + TZ_OFFSET))
    ∧ fetch_data (.success (.json (some
        [⟨"2024-01-01T00:00:00Z", some "20.0", some "50"⟩,
         ⟨"2024-01-01T01:00:00Z", some "22.0", some "55"⟩]))) =
      [⟨epochOfCivil 2023 12 31 21 0 0, some 20, some 50⟩,
       ⟨epochOfCivil 2023 12 31 22 0 0, some 22, some 55⟩] := by
  refine ⟨by decide, ?_, ?_⟩
  · intro r t ht
    simp [normalizeRecord, ht]
  · have hp1 : parseTimestampUTC "2024-01-01T00:00:00Z" = some 1704067200 := by
      decide
    have hp2 : parseTimestampUTC "2024-01-01T01:00:00Z" = some 1704070800 := by
      decide
    have h20 : toNumeric (some "20.0") = some 20 := by with_unfolding_all decide
    have h50 : toNumeric (some "50") = some 50 := by with_unfolding_all decide
    have h22 : toNumeric (some "22.0") = some 22 := by with_unfolding_all decide
    have h55 : toNumeric (some "55") = some 55 := by with_unfolding_all decide
    have hr1 : normalizeRecord ⟨"2024-01-01T00:00:00Z", some "20.0",
        some "50"⟩ = some ⟨1704056400, some 20, some 50⟩ := by
      simp [normalizeRecord, hp1, h20, h50, TZ_OFFSET]
    have hr2 : normalizeRecord ⟨"2024-01-01T01:00:00Z", some "22.0",
        some "55"⟩ = some ⟨1704060000, some 22, some 55⟩ := by
      simp [normalizeRecord, hp2, h22, h55, TZ_OFFSET]
    have hall : normalizeAll
        [⟨"2024-01-01T00:00:00Z", some "20.0", some "50"⟩,
         ⟨"2024-01-01T01:00:00Z", some "22.0", some "55"⟩] =
        some [⟨1704056400, some 20, some 50⟩,
          ⟨1704060000, some 22, some 55⟩] := by
      simp only [normalizeAll]
      rw [hr1, hr2]
    simp only [fetch_data]
    rw [hall]
    decide

/-- Witness for claim C1 at the concrete first record of the spec's
scenario. -/
theorem claim_C1_witness :
    parseTimestampUTC "2024-01-01T00:00:00Z" = some 1704067200
    ∧ (normalizeRecord ⟨"2024-01-01T00:00:00Z", some "20.0", some "50"⟩).map
        (fun x => x.created_at) = some (1704067200 + TZ_OFFSET) :=
  ⟨by decide,
   claim_C1_utc_offset.2.1 ⟨"2024-01-01T00:00:00Z", some "20.0", some "50"⟩
     1704067200 (by decide)⟩

/-- Claim C3 (Rolling Aggregator, modelled from the spec): for a positive
window size `w`, `temperatureMA[i]` is the arithmetic mean of the present
temperature values among readings `max(0, i-w+1) .. i` (partial windows at
the start, absent when the whole trailing sub-window is absent), and
identically for `humidityMA`; both columns are index-aligned with the
series.  Note `(i + 1) - w` is truncated subtraction, i.e.
`max 0 (i - w + 1)`. -/
theorem claim_C3_rolling (w : Nat) (_hw : 0 < w) (s : List Reading) (i : Nat)
    (hi : i < s.length) :
    (rollingSeries w s).1.length = s.length
    ∧ (rollingSeries w s).2.length = s.length
    ∧ (rollingSeries w s).1[i]? =
        some (meanOfPresent
          (((s.map (fun r => r.field1)).take (i + 1)).drop ((i + 1) - w)))
    ∧ (rollingSeries w s).2[i]? =
        some (meanOfPresent
          (((s.map (fun r => r.field2)).take (i + 1)).drop ((i + 1) - w))) := by
  have h1 : (s.map (fun r => r.field1)).length = s.length := by simp
  have h2 : (s.map (fun r => r.field2)).length = s.length := by simp
  refine ⟨?_, ?_, ?_, ?_⟩
  · rw [show (rollingSeries w s).1 = rollingMA w (s.map fun r => r.field1)
      from rfl, length_rollingMA, h1]
  · rw [show (rollingSeries w s).2 = rollingMA w (s.map fun r => r.field2)
      from rfl, length_rollingMA, h2]
  · exact rollingMA_getElem w _ i (by rw [h1]; exact hi)
  · exact rollingMA_getElem w _ i (by rw [h2]; exact hi)

/-- Witness for claim C3 on the spec's concrete scenario (two all-present
readings, `w = 2`): the temperature moving average is `[20, 21]`. -/
theorem claim_C3_witness :
    ((0 : Nat) < 2
      ∧ (1 : Nat) < ([⟨0, some 20, some 50⟩, ⟨3600, some 22, some 55⟩] :
          List Reading).length)
    ∧ (rollingSeries 2
        [⟨0, some 20, some 50⟩, ⟨3600, some 22, some 55⟩]).1[1]? =
      some (meanOfPresent
        ((([⟨0, some 20, some 50⟩, ⟨3600, some 22, some 55⟩] :
            List Reading).map (fun r => r.field1)).take (1 + 1) |>.drop
              ((1 + 1) - 2)))
    ∧ (rollingSeries 2
        [⟨0, some 20, some 50⟩, ⟨3600, some 22, some 55⟩]).1 =
      [some 20, some 21] := by
  refine ⟨⟨by decide, by decide⟩, ?_, by with_unfolding_all decide⟩
  exact (claim_C3_rolling 2 (by decide) _ 1 (by decide)).2.2.1

/-- Claim C4: a field value that fails numeric coercion becomes an absent
value in the Reading (the normalizer does not raise for a single bad
field), and absent values are excluded from the `mean` and the extremes of
that field (inserting an absent-valued reading anywhere changes neither). -/
theorem claim_C4_field_coercion :
    (∀ (r : RawRecord) (t : Int), parseTimestampUTC r.created_at = some t →
      normalizeRecord r = some ⟨t + TZ_OFFSET, toNumeric r.field1,
        toNumeric r.field2⟩)
    ∧ toNumeric (some "not-a-number") = none
    ∧ normalizeRecord ⟨"2024-01-01T00:00:00Z", some "not-a-number",
        some "50"⟩ =
      some ⟨epochOfCivil 2023 12 31 21 0 0, none, some 50⟩
    ∧ ∀ (f : Reading → Option ℚ) (df1 df2 : List Reading) (r : Reading),
        f r = none →
          meanOfField f (df1 ++ r :: df2) = meanOfField f (df1 ++ df2)
          ∧ seriesMax f (df1 ++ r :: df2) = seriesMax f (df1 ++ df2)
          ∧ seriesMin f (df1 ++ r :: df2) = seriesMin f (df1 ++ df2) := by
  refine ⟨?_, by decide, ?_, ?_⟩
  · intro r t ht
    simp [normalizeRecord, ht]
  · have hp1 : parseTimestampUTC "2024-01-01T00:00:00Z" = some 1704067200 := by
      decide
    have hnan : toNumeric (some "not-a-number") = none := by decide
    have h50 : toNumeric (some "50") = some 50 := by with_unfolding_all decide
    have hep : epochOfCivil 2023 12 31 21 0 0 = 1704056400 := by decide
    simp [normalizeRecord, hp1, hnan, h50, hep, TZ_OFFSET]
  · intro f df1 df2 r hr
    refine ⟨?_, ?_, ?_⟩
    · unfold meanOfField
      rw [List.map_append, List.map_cons, hr, meanOfPresent_insert_absent,
        ← List.map_append]
    · exact firstBestBy_insert_absent _ f r hr df1 df2
    · exact firstBestBy_insert_absent _ f r hr df1 df2

/-- Witness for claim C4: a record with an unparsable temperature
normalizes without failure to an absent temperature, and inserting an
absent-temperature reading leaves the temperature mean unchanged. -/
theorem claim_C4_witness :
    (parseTimestampUTC "2024-01-01T01:00:00Z" = some 1704070800
      ∧ normalizeRecord ⟨"2024-01-01T01:00:00Z", some "abc", some "55"⟩ =
        some ⟨1704070800 + TZ_OFFSET, toNumeric (some "abc"),
          toNumeric (some "55")⟩)
    ∧ ((fun r : Reading => r.field1) ⟨5, none, none⟩ = none
      ∧ meanOfField (fun r => r.field1)
          ([⟨0, some 20, some 50⟩] ++ ⟨5, none, none⟩ ::
            [⟨9, some 22, some 55⟩]) =
        meanOfField (fun r => r.field1)
          ([⟨0, some 20, some 50⟩] ++ [⟨9, some 22, some 55⟩])) :=
  ⟨⟨by decide,
    claim_C4_field_coercion.1 ⟨"2024-01-01T01:00:00Z", some "abc", some "55"⟩
      1704070800 (by decide)⟩,
   ⟨rfl, (claim_C4_field_coercion.2.2.2 (fun r => r.field1)
      [⟨0, some 20, some 50⟩] [⟨9, some 22, some 55⟩]
      ⟨5, none, none⟩ rfl).1⟩⟩

/-- Claim C5: every structural failure of the fetch or normalization
(transport failure, non-JSON payload, missing `feeds` field, timestamp
column failing to parse) makes the pipeline return the explicit empty
result as a whole — never a partially-valid series, never a process
termination. -/
theorem claim_C5_structural_failures :
    fetch_data .transportFailure = []
    ∧ fetch_data (.success .notJson) = []
    ∧ fetch_data (.success (.json none)) = []
    ∧ ∀ feeds : List RawRecord, normalizeAll feeds = none →
        fetch_data (.success (.json (some feeds))) = [] := by
  refine ⟨rfl, rfl, rfl, fun feeds h => ?_⟩
  simp only [fetch_data]
  rw [h]

/-- Witness for claim C5: a payload whose one record has an unparsable
timestamp fails normalization and yields the empty dataframe. -/
theorem claim_C5_witness :
    normalizeAll [⟨"not-a-date", some "20.0", some "50"⟩] = none
    ∧ fetch_data (.success (.json (some
        [⟨"not-a-date", some "20.0", some "50"⟩]))) = [] :=
  ⟨by decide, claim_C5_structural_failures.2.2.2 _ (by decide)⟩

/-- Counterexample to claim C6: on a series with exactly one reading, the
previous-value computation (`iloc[-2]`, line 157) fails with a positional
`IndexError` that nothing in `main` catches — not with a typed
`EmptySeriesError`; no such error type exists in the source at all (the
model's whole error vocabulary is `PdError`). -/
theorem claim_C6_counterexample :
    homeView [⟨0, some 20, some 50⟩] = .error .indexError := by
  unfold homeView
  rw [if_neg (by simp)]
  rw [ilocNeg_ok ([(⟨0, some 20, some 50⟩ : Reading)].map fun x => x.field1) 1
      (by omega) (by simp),
    ilocNeg_err ([(⟨0, some 20, some 50⟩ : Reading)].map fun x => x.field1) 2
      (by simp),
    ilocNeg_ok ([(⟨0, some 20, some 50⟩ : Reading)].map fun x => x.field2) 1
      (by omega) (by simp),
    ilocNeg_err ([(⟨0, some 20, some 50⟩ : Reading)].map fun x => x.field2) 2
      (by simp)]

/-- Amended claim C6: on a series with no readings, the Home branch renders
the no-data message without computing `current`/`previous` at all (the
`df.empty` guard of line 152); on a series with exactly one reading,
computing the previous value fails with an unhandled positional
`IndexError`; with two or more readings all four metric values are
computed. -/
theorem claim_C6_amended :
    homeView [] = .ok .noData
    ∧ (∀ r : Reading, homeView [r] = .error .indexError)
    ∧ ∀ df : List Reading, 2 ≤ df.length →
        ∃ a b c d, homeView df = .ok (.metrics a b c d) := by
  refine ⟨rfl, fun r => ?_, fun df hdf => ?_⟩
  · unfold homeView
    rw [if_neg (by simp)]
    rw [ilocNeg_ok ([r].map fun x => x.field1) 1 (by omega) (by simp),
      ilocNeg_err ([r].map fun x => x.field1) 2 (by simp),
      ilocNeg_ok ([r].map fun x => x.field2) 1 (by omega) (by simp),
      ilocNeg_err ([r].map fun x => x.field2) 2 (by simp)]
  · have hne : df.isEmpty = false := by
      cases df with
      | nil => simp at hdf
      | cons a as => rfl
    have hl1 : (df.map fun x => x.field1).length = df.length := by simp
    have hl2 : (df.map fun x => x.field2).length = df.length := by simp
    unfold homeView
    rw [if_neg (by rw [hne]; exact Bool.false_ne_true)]
    rw [ilocNeg_ok (df.map fun x => x.field1) 1 (by omega) (by omega),
      ilocNeg_ok (df.map fun x => x.field1) 2 (by omega) (by omega),
      ilocNeg_ok (df.map fun x => x.field2) 1 (by omega) (by omega),
      ilocNeg_ok (df.map fun x => x.field2) 2 (by omega) (by omega)]
    exact ⟨_, _, _, _, rfl⟩

/-- Witness for claim C6 at a concrete two-reading series. -/
theorem claim_C6_witness :
    2 ≤ ([⟨0, some 20, some 50⟩, ⟨9, some 22, some 55⟩] :
        List Reading).length
    ∧ ∃ a b c d, homeView
        [⟨0, some 20, some 50⟩, ⟨9, some 22, some 55⟩] =
      .ok (.metrics a b c d) :=
  ⟨by decide, claim_C6_amended.2.2 _ (by decide)⟩

/-- Claim C7: for every series with at least one present value of the
requested field, `maxValue`/`minValue` are the extreme present values of
that field, and `maxTimestamp`/`minTimestamp` are the timestamps of the
first occurrence of those extremes: the extreme is attained, it bounds
every present value, and no reading at an earlier index attains it. -/
theorem claim_C7_extremes (f : Reading → Option ℚ) (df : List Reading)
    (hpres : ∃ r ∈ df, (f r).isSome) :
    (∃ a v, seriesMax f df = some (a, v) ∧ f a = some v ∧
      maxValue f df = some v ∧ maxTimestamp f df = some a.created_at ∧
      (∀ b ∈ df, ∀ u, f b = some u → u ≤ v) ∧
      ∃ i, i < df.length ∧ df[i]? = some a ∧
        ∀ j, j < i → ∀ b, df[j]? = some b → f b ≠ some v)
    ∧ (∃ a v, seriesMin f df = some (a, v) ∧ f a = some v ∧
      minValue f df = some v ∧ minTimestamp f df = some a.created_at ∧
      (∀ b ∈ df, ∀ u, f b = some u → v ≤ u) ∧
      ∃ i, i < df.length ∧ df[i]? = some a ∧
        ∀ j, j < i → ∀ b, df[j]? = some b → f b ≠ some v) := by
  constructor
  · have hspec := firstBestBy_spec (fun w v => decide (v < w))
      (fun v => by simp)
      (fun u v h => by
        simp only [decide_eq_true_eq] at h
        simp only [decide_eq_false_iff_not]
        exact lt_asymm h)
      (fun u w v h1 h2 => by
        simp only [decide_eq_false_iff_not, not_lt] at h1 h2 ⊢
        exact le_trans h1 h2)
      f df hpres
    rcases hspec with ⟨a, v, hfb, hfa, hbound, i, hi, hgi, hearly⟩
    refine ⟨a, v, hfb, hfa, ?_, ?_, ?_, i, hi, hgi, ?_⟩
    · show (seriesMax f df).map (fun p => p.2) = some v
      rw [show seriesMax f df = some (a, v) from hfb]
      rfl
    · show (seriesMax f df).map (fun p => p.1.created_at) = some a.created_at
      rw [show seriesMax f df = some (a, v) from hfb]
      rfl
    · intro b hb u hu
      have h := hbound b hb u hu
      simp only [decide_eq_false_iff_not, not_lt] at h
      exact h
    · intro j hj b hgb heq
      have h := hearly j hj b hgb v heq
      simp only [decide_eq_true_eq] at h
      exact absurd h (lt_irrefl v)
  · have hspec := firstBestBy_spec (fun w v => decide (w < v))
      (fun v => by simp)
      (fun u v h => by
        simp only [decide_eq_true_eq] at h
        simp only [decide_eq_false_iff_not]
        exact lt_asymm h)
      (fun u w v h1 h2 => by
        simp only [decide_eq_false_iff_not, not_lt] at h1 h2 ⊢
        exact le_trans h2 h1)
      f df hpres
    rcases hspec with ⟨a, v, hfb, hfa, hbound, i, hi, hgi, hearly⟩
    refine ⟨a, v, hfb, hfa, ?_, ?_, ?_, i, hi, hgi, ?_⟩
    · show (seriesMin f df).map (fun p => p.2) = some v
      rw [show seriesMin f df = some (a, v) from hfb]
      rfl
    · show (seriesMin f df).map (fun p => p.1.created_at) = some a.created_at
      rw [show seriesMin f df = some (a, v) from hfb]
      rfl
    · intro b hb u hu
      have h := hbound b hb u hu
      simp only [decide_eq_false_iff_not, not_lt] at h
      exact h
    · intro j hj b hgb heq
      have h := hearly j hj b hgb v heq
      simp only [decide_eq_true_eq] at h
      exact absurd h (lt_irrefl v)

/-- Witness for claim C7 at a concrete three-reading series whose maximum
temperature 25 is attained twice: the reported timestamp is that of the
first occurrence. -/
theorem claim_C7_witness :
    (∃ r ∈ ([⟨0, some 20, some 50⟩, ⟨10, some 25, some 40⟩,
        ⟨20, some 25, some 60⟩] : List Reading),
      ((fun x : Reading => x.field1) r).isSome)
    ∧ (∃ a v, seriesMax (fun x : Reading => x.field1)
        [⟨0, some 20, some 50⟩, ⟨10, some 25, some 40⟩,
         ⟨20, some 25, some 60⟩] = some (a, v) ∧
        (fun x : Reading => x.field1) a = some v ∧
        maxValue (fun x : Reading => x.field1)
          [⟨0, some 20, some 50⟩, ⟨10, some 25, some 40⟩,
           ⟨20, some 25, some 60⟩] = some v ∧
        maxTimestamp (fun x : Reading => x.field1)
          [⟨0, some 20, some 50⟩, ⟨10, some 25, some 40⟩,
           ⟨20, some 25, some 60⟩] = some a.created_at ∧
        (∀ b ∈ ([⟨0, some 20, some 50⟩, ⟨10, some 25, some 40⟩,
            ⟨20, some 25, some 60⟩] : List Reading), ∀ u,
          (fun x : Reading => x.field1) b = some u → u ≤ v) ∧
        ∃ i, i < ([⟨0, some 20, some 50⟩, ⟨10, some 25, some 40⟩,
            ⟨20, some 25, some 60⟩] : List Reading).length ∧
          ([⟨0, some 20, some 50⟩, ⟨10, some 25, some 40⟩,
            ⟨20, some 25, some 60⟩] : List Reading)[i]? = some a ∧
          ∀ j, j < i → ∀ b, ([⟨0, some 20, some 50⟩, ⟨10, some 25, some 40⟩,
            ⟨20, some 25, some 60⟩] : List Reading)[j]? = some b →
            (fun x : Reading => x.field1) b ≠ some v)
    ∧ maxTimestamp (fun x : Reading => x.field1)
        [⟨0, some 20, some 50⟩, ⟨10, some 25, some 40⟩,
         ⟨20, some 25, some 60⟩] = some 10 := by
  refine ⟨by decide, ?_, by decide⟩
  exact (claim_C7_extremes (fun x : Reading => x.field1)
    [⟨0, some 20, some 50⟩, ⟨10, some 25, some 40⟩, ⟨20, some 25, some 60⟩]
    (by decide)).1

/-- Counterexample to claim C8: the `results` parameter of the single feed
request is the hard-coded literal 15000 of line 21, not a configurable
option defaulting to 1000. -/
theorem claim_C8_counterexample :
    (fetchRequest ⟨"2093011", "SOMEKEY"⟩).results = 15000
    ∧ (fetchRequest ⟨"2093011", "SOMEKEY"⟩).results ≠ 1000 :=
  ⟨rfl, by decide⟩

/-- Amended claim C8: the Fetcher issues a single synchronous retrieval of
up to 15000 most-recent raw records; the limit is hard-coded at 15000
(there is no `result_limit` configuration option), while channel id and
read key do come from the configuration. -/
theorem claim_C8_amended (cfg : Config) :
    (requestsIssued cfg).length = 1
    ∧ ∀ q ∈ requestsIssued cfg,
        q.results = 15000 ∧ q.channelId = cfg.channel_id
          ∧ q.apiKey = cfg.read_api_key := by
  refine ⟨rfl, fun q hq => ?_⟩
  have hq2 : q = fetchRequest cfg := List.mem_singleton.mp hq
  subst hq2
  exact ⟨rfl, rfl, rfl⟩

/-- Witness for claim C8 at a concrete configuration. -/
theorem claim_C8_witness :
    (fetchRequest ⟨"c", "k"⟩ ∈ requestsIssued ⟨"c", "k"⟩)
    ∧ ((fetchRequest ⟨"c", "k"⟩).results = 15000
      ∧ (fetchRequest ⟨"c", "k"⟩).channelId = (⟨"c", "k"⟩ : Config).channel_id
      ∧ (fetchRequest ⟨"c", "k"⟩).apiKey = (⟨"c", "k"⟩ : Config).read_api_key) :=
  ⟨by decide, (claim_C8_amended ⟨"c", "k"⟩).2 (fetchRequest ⟨"c", "k"⟩)
    (by decide)⟩

/-- Claim C9: an invocation of the pipeline is a pure function of the
read-only configuration state and the remote response: it leaves the state
unchanged, its output is `fetch_data` of the response alone, and two
invocations after arbitrary (possibly different) earlier invocations produce
identical outputs for the same response. -/
theorem claim_C9_stateless (s : AppState) (r h1 h2 : HttpResult) :
    (runPipeline (runPipeline s h1).1 r).2 = (runPipeline (runPipeline s h2).1 r).2
    ∧ (runPipeline s r).1 = s
    ∧ (runPipeline s r).2 = fetch_data r :=
  ⟨rfl, rfl, rfl⟩

/-- Counterexample to claim C10: a structurally valid, non-empty payload of
two records in which one timestamp fails to parse yields an empty series
(the `pd.to_datetime` call raises and the `except` clause returns the empty
dataframe), not one reading per record. -/
theorem claim_C10_counterexample :
    ([⟨"2024-01-01T00:00:00Z", some "20.0", some "50"⟩,
      ⟨"not-a-date", some "21.0", some "52"⟩] : List RawRecord).length = 2
    ∧ (fetch_data (.success (.json (some
        [⟨"2024-01-01T00:00:00Z", some "20.0", some "50"⟩,
         ⟨"not-a-date", some "21.0", some "52"⟩])))).length = 0 :=
  ⟨rfl, by decide⟩

/-- Amended claim C10: for every structurally valid payload in which every
record's timestamp parses, the normalized series contains exactly one
reading per raw record (numeric-field failures only degrade that field to
absent); a record whose timestamp fails to parse instead makes the whole
pipeline return the empty result. -/
theorem claim_C10_amended (feeds : List RawRecord)
    (h : ∀ r ∈ feeds, (parseTimestampUTC r.created_at).isSome) :
    (fetch_data (.success (.json (some feeds)))).length = feeds.length := by
  rcases normalizeAll_length feeds h with ⟨l, hl, hlen⟩
  simp only [fetch_data]
  rw [hl]
  unfold sortByCreatedAt
  rw [List.length_insertionSort]
  exact hlen

/-- Witness for claim C10 on the two-record payload of the spec's concrete
scenario. -/
theorem claim_C10_witness :
    (∀ r ∈ ([⟨"2024-01-01T00:00:00Z", some "20.0", some "50"⟩,
        ⟨"2024-01-01T01:00:00Z", some "22.0", some "55"⟩] : List RawRecord),
      (parseTimestampUTC r.created_at).isSome)
    ∧ (fetch_data (.success (.json (some
        [⟨"2024-01-01T00:00:00Z", some "20.0", some "50"⟩,
         ⟨"2024-01-01T01:00:00Z", some "22.0", some "55"⟩])))).length =
      ([⟨"2024-01-01T00:00:00Z", some "20.0", some "50"⟩,
        ⟨"2024-01-01T01:00:00Z", some "22.0", some "55"⟩] :
          List RawRecord).length :=
  ⟨by decide, claim_C10_amended _ (by decide)⟩

end Dht22
